import Mathlib

/-!
Verification of the SimpleSearchClient core (URL builder, error normalizer,
query fixup, batch document writer, conditional update, document lookup).

The client's data is dynamic JSON-like data, modelled by the inductive
type JSVal below.  JavaScript truthiness, property access and property
assignment are modelled explicitly; numbers are modelled as integers
(no claim depends on fractional or NaN behaviour).
-/

namespace AzureSearch

/-- Model of a JavaScript value as it flows through the client:
undefined, null, booleans, numbers (as integers), strings, arrays and
plain objects (ordered association lists of own enumerable properties). -/
inductive JSVal where
  | undefined
  | null
  | bool (b : Bool)
  | num (n : Int)
  | str (s : String)
  | arr (elems : List JSVal)
  | obj (fields : List (String × JSVal))

/-- JavaScript truthiness: undefined, null, false, 0 and the empty string
are falsy; every other value (including any object or array) is truthy. -/
def truthy : JSVal → Bool
  | .undefined => false
  | .null => false
  | .bool b => b
  | .num n => n != 0
  | .str s => s != ""
  | .arr _ => true
  | .obj _ => true

/-- Association-list lookup for object fields and request headers. -/
def lookupEntry {α : Type} : List (String × α) → String → Option α
  | [], _ => none
  | (k0, v0) :: rest, k => if k0 = k then some v0 else lookupEntry rest k

/-- Association-list update, modelling a JavaScript property assignment:
an existing key keeps its position and gets the new value; a new key is
appended at the end (JS insertion order). -/
def setEntry {α : Type} : List (String × α) → String → α → List (String × α)
  | [], k, v => [(k, v)]
  | (k0, v0) :: rest, k, v =>
      if k0 = k then (k0, v) :: rest else (k0, v0) :: setEntry rest k v

/-- Property read on a JavaScript value: a missing property, or a read on a
non-object, yields undefined.  (A read on null or undefined throws in JS;
the definitions below that perform such reads guard for it explicitly.) -/
def getField : JSVal → String → JSVal
  | .obj fs, k => (lookupEntry fs k).getD .undefined
  | _, _ => .undefined

/-- Property assignment on a JavaScript value; assignment to a non-object
is modelled as a no-op (the client only ever assigns onto response
objects). -/
def setField : JSVal → String → JSVal → JSVal
  | .obj fs, k, v => .obj (setEntry fs k v)
  | other, _, _ => other

mutual

/-- JavaScript string conversion, as used by template-literal
interpolation: arrays join their stringified elements with commas. -/
def jsToString : JSVal → String
  | .undefined => "undefined"
  | .null => "null"
  | .bool true => "true"
  | .bool false => "false"
  | .num n => toString n
  | .str s => s
  | .arr elems => jsArrToString elems
  | .obj _ => "[object Object]"

/-- Array-join string conversion: elements are separated by commas. -/
def jsArrToString : List JSVal → String
  | [] => ""
  | [x] => jsElemToString x
  | x :: rest => jsElemToString x ++ "," ++ jsArrToString rest

/-- Element stringification inside an array join: null and undefined
elements become the empty string. -/
def jsElemToString : JSVal → String
  | .undefined => ""
  | .null => ""
  | v => jsToString v

end

/-- The immutable client configuration fixed at construction: service
name, API key, optional sovereign-cloud suffix, and the user-agent
string computed once in the constructor. -/
structure SimpleSearchClient where
  serviceName : String
  apikey : String
  cloudSuffix : Option String
  userAgent : String

/-- The fixed compile-time API version constant. -/
def API_VERSION : String := "2019-05-06"

/-- The URL builder (makeUrl): picks the caller-supplied cloud suffix
when it is truthy (present and non-empty) and the public default
otherwise, prepends a single ampersand to a non-empty query fragment
that does not already start with one, and composes the versioned URL. -/
def makeUrl (c : SimpleSearchClient) (path : String) (options : String := "") : String :=
  let suffix : String :=
    match c.cloudSuffix with
    | some s => if s != "" then s else "search.windows.net"
    | none => "search.windows.net"
  let options := if options != "" && options.front != '&' then "&" ++ options else options
  "https://" ++ c.serviceName ++ "." ++ suffix ++ "/" ++ path ++ "?api-version=" ++
    API_VERSION ++ options

/-- The per-call request configuration: the API key header and the
product identifier header, built fresh on every call. -/
def makeRequestConfig (c : SimpleSearchClient) : List (String × String) :=
  [("api-key", c.apikey), ("User-Agent", c.userAgent)]

/-- An HTTP request as the transport would issue it. -/
structure Request where
  method : String
  url : String
  body : Option JSVal
  headers : List (String × String)

/-- The body of the Error Normalizer, reached on failure values whose
response property can be read at all: the nested
response.data.error.message chain is read (a missing property reads as
undefined) and is returned verbatim when every link of the chain is
truthy, otherwise the fallback string is built from the failure's own
message property when that is truthy, or from the stringified failure. -/
def extractErrorMessageBody (error : JSVal) : JSVal :=
  let response := getField error "response"
  let data := getField response "data"
  let err := getField data "error"
  let message := getField err "message"
  if truthy response && truthy data && truthy err && truthy message then
    message
  else
    .str ("Error: " ++
      (if truthy (getField error "message")
       then jsToString (getField error "message")
       else jsToString error))

/-- The Error Normalizer (extractErrorMessage).  Reading the response
property of a null or undefined failure value throws a TypeError in
JavaScript, modelled by the error branch; every other value flows
through the normalizer body. -/
def extractErrorMessage (error : JSVal) : Except Unit JSVal :=
  match error with
  | .undefined => .error ()
  | .null => .error ()
  | _ => .ok (extractErrorMessageBody error)

/-- GET request composition (httpGet): builds the URL from the path and
query string and attaches the per-call headers. -/
def httpGet (c : SimpleSearchClient) (path : String) (queryString : String := "") : Request :=
  { method := "GET", url := makeUrl c path queryString, body := none,
    headers := makeRequestConfig c }

/-- POST request composition (httpPost). -/
def httpPost (c : SimpleSearchClient) (path : String) (data : JSVal) : Request :=
  { method := "POST", url := makeUrl c path, body := some data,
    headers := makeRequestConfig c }

/-- PUT request composition (httpPut): attaches the if-match
concurrency header exactly when the supplied etag is truthy (present
and non-empty). -/
def httpPut (c : SimpleSearchClient) (path : String) (data : JSVal)
    (etag : Option String := none) : Request :=
  let config := makeRequestConfig c
  let config :=
    match etag with
    | some e => if e != "" then setEntry config "if-match" e else config
    | none => config
  { method := "PUT", url := makeUrl c path, body := some data, headers := config }

/-- updateResource: PUT of the content at the resource path, with the
write conditioned on the optional concurrency token. -/
def updateResource (c : SimpleSearchClient) (resource name : String) (content : JSVal)
    (etag : Option String := none) : Request :=
  httpPut c (resource ++ "/" ++ name) content etag

/-- fixupQueryResponse: copies the vendor pagination field into the
normalized nextLink field and the vendor next-page-parameters field
into the normalized continuation-parameters field (the latter is
spelled nextPageParameteres in the source). -/
def fixupQueryResponse (response : JSVal) : JSVal :=
  let response := setField response "nextLink" (getField response "@odata.nextLink")
  let response :=
    setField response "nextPageParameteres" (getField response "@search.nextPageParameters")
  response

/-- query: issues a GET on the docs collection of the index with the
caller's raw query fragment, and returns the response body, fixed up
unless raw is true.  The transport is abstracted by passing the body
the service answered with; the returned pair is the issued request and
the body handed back to the caller. -/
def query (c : SimpleSearchClient) (indexName : String) (queryString : String)
    (data : JSVal) (raw : Bool := false) : Request × JSVal :=
  (httpGet c ("indexes/" ++ indexName ++ "/docs") queryString,
   if !raw then fixupQueryResponse data else data)

/-- queryNext: GETs the absolute continuation link directly (no URL
building) and always applies the fixup. -/
def queryNext (c : SimpleSearchClient) (nextLink : String) (data : JSVal) : Request × JSVal :=
  ({ method := "GET", url := nextLink, body := none, headers := makeRequestConfig c },
   fixupQueryResponse data)

/-- Uppercase hexadecimal digit of a value below 16. -/
def hexDigit (n : Nat) : Char :=
  if n < 10 then Char.ofNat (48 + n) else Char.ofNat (55 + n)

/-- UTF-8 encoding of a code point, as a list of byte values. -/
def utf8Bytes (n : Nat) : List Nat :=
  if n < 128 then [n]
  else if n < 2048 then [192 + n / 64, 128 + n % 64]
  else if n < 65536 then [224 + n / 4096, 128 + n / 64 % 64, 128 + n % 64]
  else [240 + n / 262144, 128 + n / 4096 % 64, 128 + n / 64 % 64, 128 + n % 64]

/-- Percent-escape of one byte: a percent sign followed by two
uppercase hexadecimal digits. -/
def percentEncodeByte (b : Nat) : List Char :=
  ['%', hexDigit (b / 16), hexDigit (b % 16)]

/-- The characters the ECMAScript encodeURIComponent builtin leaves
unescaped: ASCII letters and digits and the marks - _ . ! ~ * \x27 ( ). -/
def isUnreservedURI (c : Char) : Bool :=
  c.isAlphanum || c = '-' || c = '_' || c = '.' || c = '!' || c = '~' || c = '*' ||
    c = Char.ofNat 39 || c = '(' || c = ')'

/-- Modelled from the ECMAScript builtin: encodeURIComponent keeps
unreserved characters and percent-escapes the UTF-8 bytes of every
other character. -/
def encodeURIComponent (s : String) : String :=
  String.mk (s.data.flatMap fun c =>
    if isUnreservedURI c then [c] else (utf8Bytes c.toNat).flatMap percentEncodeByte)

/-- lookup: GETs the document at indexes/(indexName)/docs/(encoded key)
with the key percent-encoded into the path. -/
def lookup (c : SimpleSearchClient) (indexName key : String) : Request :=
  httpGet c ("indexes/" ++ indexName ++ "/docs/" ++ encodeURIComponent key)

/-- lookup returns the response body unmodified (no pagination fixup). -/
def lookupResult (data : JSVal) : JSVal := data

/-- The envelope shape the service uses for all listing and batch
endpoints. -/
structure CollectionResponse (α : Type) where
  value : List α

/-- One entry of a batch submission response. -/
structure BatchResponseEntry where
  key : JSVal
  status : Bool
  errorMessage : String
  statusCode : Int

/-- indexBatch: POSTs the batch to the docs index endpoint and
validates the reply.  The transport outcome of httpPost is passed in:
an error value carries the message of the error httpPost already threw
(httpPost rethrows transport failures as an error whose message is the
normalizer's output, so indexBatch's own catch wraps it as
Failed to process document: Error: (that message)); a successful
outcome carries the typed batch envelope.  The result is the POSTed
URL together with the outcome indexBatch reports to its caller:
wrong-entry-count and rejected-item replies become errors. -/
def indexBatch (c : SimpleSearchClient) (indexName : String)
    (serviceReply : Except String (CollectionResponse BatchResponseEntry)) :
    String × Except String Unit :=
  (makeUrl c ("indexes/" ++ indexName ++ "/docs/index"),
   match serviceReply with
   | .error msg => .error ("Failed to process document: Error: " ++ msg)
   | .ok batchResponse =>
     match batchResponse.value with
     | [entry] =>
       if !entry.status then
         .error ("Failed to process document: " ++ entry.errorMessage)
       else
         .ok ()
     | _ => .error "Unexpected response from service while attempting to process document")

/-- The action stamped on an uploaded document. -/
def uploadAction (createNew : Bool) : JSVal :=
  .str (if createNew then "mergeOrUpload" else "merge")

/-- The batch body uploadDocument submits: a shallow copy of the
caller's record with the action discriminator assigned onto the copy,
wrapped as a one-element batch. -/
def uploadDocumentBody (doc : List (String × JSVal)) (createNew : Bool) : JSVal :=
  .obj [("value", .arr [.obj (setEntry doc "@search.action" (uploadAction createNew))])]

/-- uploadDocument: pairs the submitted batch body with the outcome of
the shared indexBatch path on the service's reply. -/
def uploadDocument (c : SimpleSearchClient) (indexName : String)
    (doc : List (String × JSVal)) (createNew : Bool)
    (serviceReply : Except String (CollectionResponse BatchResponseEntry)) :
    JSVal × String × Except String Unit :=
  (uploadDocumentBody doc createNew, indexBatch c indexName serviceReply)

/-- The batch body deleteDocument submits: a fresh record holding only
the delete action and the key field. -/
def deleteDocumentBody (keyName : String) (key : JSVal) : JSVal :=
  .obj [("value", .arr [.obj (setEntry (setEntry [] "@search.action" (.str "delete")) keyName key)])]

/-- deleteDocument: pairs the submitted batch body with the outcome of
the shared indexBatch path on the service's reply. -/
def deleteDocument (c : SimpleSearchClient) (indexName : String)
    (keyName : String) (key : JSVal)
    (serviceReply : Except String (CollectionResponse BatchResponseEntry)) :
    JSVal × String × Except String Unit :=
  (deleteDocumentBody keyName key, indexBatch c indexName serviceReply)

/-- Heap-level model of the mutation in uploadDocument, making object
identity explicit: the heap is an array of records, a document is a
reference (index) into it.  The operation reads the caller's record,
allocates a fresh record holding the same fields (the object spread),
then assigns the action discriminator onto the fresh record only.
It returns the new heap and the reference submitted in the batch. -/
def uploadDocumentAlloc (heap : List (List (String × JSVal))) (docRef : Nat)
    (createNew : Bool) : List (List (String × JSVal)) × Nat :=
  let docFields := heap.getD docRef []
  let freshRef := heap.length
  let heap := heap ++ [docFields]
  let heap := heap.set freshRef (setEntry docFields "@search.action" (uploadAction createNew))
  (heap, freshRef)

/-- Is this JavaScript value a string? -/
def isStringVal : JSVal → Bool
  | .str _ => true
  | _ => false

/-- The nested service-error message chain of a failure value, read one
property at a time: response, then data, then error, then message. -/
def nestedErrorMessage (e : JSVal) : JSVal :=
  getField (getField (getField (getField e "response") "data") "error") "message"

/-- Modelled from the spec of the Error Normalizer, amended: when the
failure carries a truthy nested response.data.error.message value, that
value is returned verbatim; otherwise the result is the string Error:
followed by the failure's own message when that is truthy, or by the
stringified failure. -/
def specNormalize (e : JSVal) : JSVal :=
  if truthy (nestedErrorMessage e) then nestedErrorMessage e
  else .str ("Error: " ++
    (if truthy (getField e "message")
     then jsToString (getField e "message")
     else jsToString e))

/-- Modelled from the claim's words for the URL builder: the suffix is
the caller-supplied cloud suffix, or the default suffix when none was
supplied at construction. -/
def claimSuffix : Option String → String
  | some s => s
  | none => "search.windows.net"

/-- Modelled from the claim's words: the built URL, with the claimed
three-case fragment rule and the claimed suffix rule. -/
def claimUrl (c : SimpleSearchClient) (path fragment : String) : String :=
  "https://" ++ c.serviceName ++ "." ++ claimSuffix c.cloudSuffix ++ "/" ++ path ++
    "?api-version=" ++ API_VERSION ++
    (if fragment = "" then ""
     else if fragment.front = '&' then fragment
     else "&" ++ fragment)

/-- The amended suffix rule: the default suffix is also used when the
supplied suffix is the empty string (a falsy value). -/
def claimSuffixAmended : Option String → String
  | some s => if s = "" then "search.windows.net" else s
  | none => "search.windows.net"

/-- The built URL as the amended claim describes it. -/
def claimUrlAmended (c : SimpleSearchClient) (path fragment : String) : String :=
  "https://" ++ c.serviceName ++ "." ++ claimSuffixAmended c.cloudSuffix ++ "/" ++ path ++
    "?api-version=" ++ API_VERSION ++
    (if fragment = "" then ""
     else if fragment.front = '&' then fragment
     else "&" ++ fragment)

section HelperLemmas

theorem lookupEntry_setEntry_self {α : Type} (fs : List (String × α)) (k : String) (v : α) :
    lookupEntry (setEntry fs k v) k = some v := by
  induction fs with
  | nil => simp [setEntry, lookupEntry]
  | cons hd tl ih =>
    obtain ⟨k0, v0⟩ := hd
    by_cases h : k0 = k
    · simp [setEntry, h, lookupEntry]
    · simp [setEntry, h, lookupEntry, ih]

theorem lookupEntry_setEntry_ne {α : Type} (fs : List (String × α)) (k k' : String) (v : α)
    (h : k' ≠ k) : lookupEntry (setEntry fs k v) k' = lookupEntry fs k' := by
  induction fs with
  | nil =>
    have h' : ¬k = k' := fun he => h he.symm
    simp [setEntry, lookupEntry, h']
  | cons hd tl ih =>
    obtain ⟨k0, v0⟩ := hd
    by_cases h0 : k0 = k
    · subst h0
      have h' : ¬k0 = k' := fun he => h he.symm
      simp [setEntry, lookupEntry, h']
    · simp [setEntry, h0, lookupEntry, ih]

theorem getField_setField_self (fs : List (String × JSVal)) (k : String) (v : JSVal) :
    getField (setField (.obj fs) k v) k = v := by
  simp [setField, getField, lookupEntry_setEntry_self]

theorem getField_setField_ne (fs : List (String × JSVal)) (k k' : String) (v : JSVal)
    (h : k' ≠ k) : getField (setField (.obj fs) k v) k' = getField (.obj fs) k' := by
  simp [setField, getField, lookupEntry_setEntry_ne fs k k' v h]

/-- A truthy property read forces the receiver to be an object (reads
on every other value yield undefined), and objects are truthy. -/
theorem truthy_getField (v : JSVal) (k : String) (h : truthy (getField v k) = true) :
    truthy v = true := by
  cases v <;> simp_all [getField, truthy]

theorem extractErrorMessageBody_eq_spec (e : JSVal) :
    extractErrorMessageBody e = specNormalize e := by
  by_cases hm : truthy (nestedErrorMessage e) = true
  · have h3 : truthy (getField (getField (getField e "response") "data") "error") = true :=
      truthy_getField _ "message" hm
    have h2 : truthy (getField (getField e "response") "data") = true :=
      truthy_getField _ "error" h3
    have h1 : truthy (getField e "response") = true :=
      truthy_getField _ "data" h2
    simp [extractErrorMessageBody, specNormalize, nestedErrorMessage, hm, h3, h2, h1]
  · have hm' :
        truthy (getField (getField (getField (getField e "response") "data") "error")
          "message") = false := by
      simpa [nestedErrorMessage] using hm
    simp [extractErrorMessageBody, specNormalize, nestedErrorMessage, hm']

theorem extractErrorMessageBody_cases (e : JSVal) :
    isStringVal (extractErrorMessageBody e) = true ∨
      extractErrorMessageBody e = nestedErrorMessage e := by
  rw [extractErrorMessageBody_eq_spec]
  by_cases hm : truthy (nestedErrorMessage e) = true
  · right
    simp [specNormalize, hm]
  · left
    simp [specNormalize, hm, isStringVal]

theorem urlOptions_eq (fragment : String) :
    (if fragment != "" && fragment.front != '&' then "&" ++ fragment else fragment) =
      (if fragment = "" then ""
       else if fragment.front = '&' then fragment
       else "&" ++ fragment) := by
  by_cases h1 : fragment = ""
  · simp [h1]
  · by_cases h2 : fragment.front = '&' <;> simp [h1, h2]

theorem lookupEntry_setEntry_eq {α : Type} (fs : List (String × α)) (k k' : String) (v : α) :
    lookupEntry (setEntry fs k v) k' = if k' = k then some v else lookupEntry fs k' := by
  by_cases h : k' = k
  · subst h
    simp [lookupEntry_setEntry_self]
  · simp [h, lookupEntry_setEntry_ne fs k k' v h]

/-- Every code point of a character is below the Unicode bound. -/
theorem char_toNat_lt (c : Char) : c.toNat < 1114112 := by
  have h := c.valid
  unfold UInt32.isValidChar at h
  unfold Nat.isValidChar at h
  rcases h with h | ⟨h1, h2⟩ <;> simp [Char.toNat] <;> omega

/-- The UTF-8 bytes of a code point below the Unicode bound are byte
values. -/
theorem utf8Bytes_lt (n : Nat) (hn : n < 1114112) : ∀ b ∈ utf8Bytes n, b < 256 := by
  intro b hb
  unfold utf8Bytes at hb
  split_ifs at hb with h1 h2 h3 <;> simp [List.mem_cons] at hb <;> omega

/-- Hexadecimal digits are never one of the URL-reserved characters the
lookup claim is about. -/
theorem hexDigit_not_reserved (m : Nat) (h : m < 16) :
    hexDigit m ≠ '/' ∧ hexDigit m ≠ '?' ∧ hexDigit m ≠ '&' ∧ hexDigit m ≠ '#' := by
  have hall : ∀ m' : Nat, m' < 16 →
      hexDigit m' ≠ '/' ∧ hexDigit m' ≠ '?' ∧ hexDigit m' ≠ '&' ∧ hexDigit m' ≠ '#' := by
    decide
  exact hall m h

/-- No character of a percent-encoded key is a slash, question mark,
ampersand or hash: unreserved characters are none of those four, and
escapes consist of a percent sign and hexadecimal digits. -/
theorem encodeURIComponent_chars (s : String) :
    ∀ ch ∈ (encodeURIComponent s).data, ch ≠ '/' ∧ ch ≠ '?' ∧ ch ≠ '&' ∧ ch ≠ '#' := by
  intro ch hch
  have hch' : ch ∈ s.data.flatMap fun c =>
      if isUnreservedURI c then [c] else (utf8Bytes c.toNat).flatMap percentEncodeByte := hch
  rw [List.mem_flatMap] at hch'
  obtain ⟨c, _, hc⟩ := hch'
  by_cases hu : isUnreservedURI c
  · rw [if_pos hu] at hc
    simp only [List.mem_singleton] at hc
    subst hc
    refine ⟨?_, ?_, ?_, ?_⟩ <;> intro he <;> rw [he] at hu <;> exact absurd hu (by decide)
  · rw [if_neg hu] at hc
    rw [List.mem_flatMap] at hc
    obtain ⟨b, hb, hcb⟩ := hc
    have hb256 : b < 256 := utf8Bytes_lt c.toNat (char_toNat_lt c) b hb
    simp only [percentEncodeByte, List.mem_cons, List.mem_singleton,
      List.not_mem_nil, or_false] at hcb
    rcases hcb with rfl | rfl | rfl
    · exact ⟨by decide, by decide, by decide, by decide⟩
    · exact hexDigit_not_reserved (b / 16) (by omega)
    · exact hexDigit_not_reserved (b % 16) (by omega)

end HelperLemmas

section ClaimTheorems

/-- C1: For every index name and every batch response envelope whose value
sequence does not contain exactly one entry (zero entries, or two or
more), indexBatch — and hence uploadDocument and deleteDocument, which
route through it — reports the fixed protocol-violation error, never
silently picking the first entry and never succeeding. -/
theorem indexBatch_wrong_count (c : SimpleSearchClient) (indexName : String)
    (envelope : CollectionResponse BatchResponseEntry)
    (h : envelope.value.length ≠ 1) :
    (indexBatch c indexName (.ok envelope)).2 =
      .error "Unexpected response from service while attempting to process document" ∧
    (∀ doc createNew,
      (uploadDocument c indexName doc createNew (.ok envelope)).2.2 =
        .error "Unexpected response from service while attempting to process document") ∧
    (∀ keyName key,
      (deleteDocument c indexName keyName key (.ok envelope)).2.2 =
        .error "Unexpected response from service while attempting to process document") := by
  obtain ⟨l⟩ := envelope
  cases l with
  | nil => exact ⟨rfl, fun _ _ => rfl, fun _ _ => rfl⟩
  | cons a t =>
    cases t with
    | nil => simp at h
    | cons b t2 => exact ⟨rfl, fun _ _ => rfl, fun _ _ => rfl⟩

/-- Witness for C1 at the empty envelope. -/
theorem indexBatch_wrong_count_witness :
    (indexBatch ⟨"svc", "key", none, "agent"⟩ "idx" (.ok ⟨[]⟩)).2 =
      .error "Unexpected response from service while attempting to process document" :=
  (indexBatch_wrong_count ⟨"svc", "key", none, "agent"⟩ "idx" ⟨[]⟩ (by decide)).1

/-- C2: For every batch response envelope containing exactly one entry
whose status is false, indexBatch reports an error whose message is the
fixed context prefix followed by that entry's errorMessage verbatim. -/
theorem indexBatch_item_rejected (c : SimpleSearchClient) (indexName : String)
    (entry : BatchResponseEntry) (h : entry.status = false) :
    (indexBatch c indexName (.ok ⟨[entry]⟩)).2 =
      .error ("Failed to process document: " ++ entry.errorMessage) := by
  simp [indexBatch, h]

/-- Witness for C2 at a one-entry envelope carrying a rejected item. -/
theorem indexBatch_item_rejected_witness :
    (indexBatch ⟨"svc", "key", none, "agent"⟩ "idx"
        (.ok ⟨[⟨JSVal.null, false, "boom", 400⟩]⟩)).2 =
      .error "Failed to process document: boom" :=
  indexBatch_item_rejected ⟨"svc", "key", none, "agent"⟩ "idx"
    ⟨JSVal.null, false, "boom", 400⟩ rfl

/-- C3 counterexample: a failure value whose nested
response.data.error.message field is present but holds the empty string
(a falsy value) is not returned verbatim; the normalizer falls through
to the generic branch and returns the stringified failure instead. -/
theorem extractErrorMessage_empty_message_ce :
    lookupEntry [("message", JSVal.str "")] "message" = some (JSVal.str "") ∧
    extractErrorMessage
        (.obj [("response", .obj [("data", .obj [("error",
          .obj [("message", .str "")])])])]) =
      .ok (.str "Error: [object Object]") ∧
    extractErrorMessage
        (.obj [("response", .obj [("data", .obj [("error",
          .obj [("message", .str "")])])])]) ≠
      .ok (.str "") := by
  have heq : extractErrorMessage
      (.obj [("response", .obj [("data", .obj [("error",
        .obj [("message", .str "")])])])]) =
      .ok (.str "Error: [object Object]") := by
    simp [extractErrorMessage, extractErrorMessageBody, getField, lookupEntry, truthy,
      jsToString]
  refine ⟨rfl, heq, ?_⟩
  rw [heq]
  intro hcontra
  exact absurd (JSVal.str.inj (Except.ok.inj hcontra)) (by decide)

/-- C3 (amended): for every failure value other than null and undefined,
the Error Normalizer returns the nested response.data.error.message
value verbatim when that whole chain is truthy (in particular for every
non-empty message string), and otherwise returns the string Error:
followed by the failure's own message when that is truthy, or by the
stringified failure. -/
theorem extractErrorMessage_normalizes (e : JSVal) (h1 : e ≠ .null) (h2 : e ≠ .undefined) :
    extractErrorMessage e = .ok (specNormalize e) := by
  cases e with
  | null => exact absurd rfl h1
  | undefined => exact absurd rfl h2
  | bool b => exact congrArg Except.ok (extractErrorMessageBody_eq_spec _)
  | num n => exact congrArg Except.ok (extractErrorMessageBody_eq_spec _)
  | str s => exact congrArg Except.ok (extractErrorMessageBody_eq_spec _)
  | arr l => exact congrArg Except.ok (extractErrorMessageBody_eq_spec _)
  | obj fs => exact congrArg Except.ok (extractErrorMessageBody_eq_spec _)

/-- Witness for C3 (amended) at a bare failure with message net down. -/
theorem extractErrorMessage_normalizes_witness :
    extractErrorMessage (.obj [("message", .str "net down")]) =
      .ok (specNormalize (.obj [("message", .str "net down")])) ∧
    specNormalize (.obj [("message", .str "net down")]) = .str "Error: net down" := by
  constructor
  · exact extractErrorMessage_normalizes (.obj [("message", .str "net down")])
      (fun h => JSVal.noConfusion h) (fun h => JSVal.noConfusion h)
  · simp [specNormalize, nestedErrorMessage, getField, lookupEntry, truthy, jsToString]

/-- C4 counterexample: the Error Normalizer raises on the null and
undefined failure values (reading their response property throws), and
for a truthy non-string nested message it returns that non-string value
rather than a string. -/
theorem extractErrorMessage_unsafe_ce :
    extractErrorMessage JSVal.null = .error () ∧
    extractErrorMessage JSVal.undefined = .error () ∧
    extractErrorMessage
        (.obj [("response", .obj [("data", .obj [("error",
          .obj [("message", .num 7)])])])]) =
      .ok (.num 7) ∧
    isStringVal (.num 7) = false := by
  refine ⟨rfl, rfl, ?_, rfl⟩
  simp [extractErrorMessage, extractErrorMessageBody, getField, lookupEntry, truthy]

/-- C4 (amended): for every failure value other than null and undefined,
the Error Normalizer never raises; it returns a string except that a
truthy nested response.data.error.message value is passed through
verbatim (hence the result is a string whenever that value, if truthy,
is a string). -/
theorem extractErrorMessage_safe (e : JSVal) (h1 : e ≠ .null) (h2 : e ≠ .undefined) :
    ∃ v, extractErrorMessage e = .ok v ∧
      (isStringVal v = true ∨ v = nestedErrorMessage e) := by
  cases e with
  | null => exact absurd rfl h1
  | undefined => exact absurd rfl h2
  | bool b => exact ⟨_, rfl, extractErrorMessageBody_cases _⟩
  | num n => exact ⟨_, rfl, extractErrorMessageBody_cases _⟩
  | str s => exact ⟨_, rfl, extractErrorMessageBody_cases _⟩
  | arr l => exact ⟨_, rfl, extractErrorMessageBody_cases _⟩
  | obj fs => exact ⟨_, rfl, extractErrorMessageBody_cases _⟩

/-- Witness for C4 (amended) at the empty object. -/
theorem extractErrorMessage_safe_witness :
    ∃ v, extractErrorMessage (JSVal.obj []) = .ok v ∧
      (isStringVal v = true ∨ v = nestedErrorMessage (JSVal.obj [])) :=
  extractErrorMessage_safe (JSVal.obj [])
    (fun h => JSVal.noConfusion h) (fun h => JSVal.noConfusion h)

/-- C5 counterexample: a client constructed with the empty string as its
cloud suffix builds URLs with the default public suffix, not with the
caller-supplied (empty) suffix the claim's rule prescribes. -/
theorem makeUrl_empty_suffix_ce :
    makeUrl ⟨"myservice", "key", some "", "agent"⟩ "indexes" "" =
      "https://myservice.search.windows.net/indexes?api-version=2019-05-06" ∧
    claimUrl ⟨"myservice", "key", some "", "agent"⟩ "indexes" "" =
      "https://myservice./indexes?api-version=2019-05-06" ∧
    makeUrl ⟨"myservice", "key", some "", "agent"⟩ "indexes" "" ≠
      claimUrl ⟨"myservice", "key", some "", "agent"⟩ "indexes" "" := by
  refine ⟨by decide, by decide, by decide⟩

/-- C5 (amended): for every client, path and raw query fragment, the
built URL is the claimed versioned URL with the claimed three-case
fragment rule, where the suffix is the caller-supplied cloud suffix
except that a missing or empty suffix falls back to the default
public-cloud suffix. -/
theorem makeUrl_matches_claim (c : SimpleSearchClient) (path fragment : String) :
    makeUrl c path fragment = claimUrlAmended c path fragment := by
  rcases c with ⟨sn, key, cs, ua⟩
  cases cs with
  | none =>
    simp only [makeUrl, claimUrlAmended, claimSuffixAmended]
    rw [urlOptions_eq]
  | some s =>
    by_cases h : s = ""
    · subst h
      simp only [makeUrl, claimUrlAmended, claimSuffixAmended, bne_self_eq_false,
        Bool.false_eq_true, if_false, if_true, eq_self_iff_true]
      rw [urlOptions_eq]
    · have hb : (s != "") = true := by simpa using h
      simp only [makeUrl, claimUrlAmended, claimSuffixAmended, hb, if_true, if_neg h]
      rw [urlOptions_eq]

/-- C6: uploadDocument submits the one-element batch wrapping the
caller's record with the action discriminator stamped on: the stamped
record maps the discriminator to mergeOrUpload or merge according to
createNew, agrees with the original record on every other field, and
the concrete record of the claim produces exactly the claimed body. -/
theorem uploadDocument_builds_batch (doc : List (String × JSVal)) (createNew : Bool) :
    uploadDocumentBody doc createNew =
      .obj [("value", .arr [.obj (setEntry doc "@search.action" (uploadAction createNew))])] ∧
    lookupEntry (setEntry doc "@search.action" (uploadAction createNew)) "@search.action" =
      some (uploadAction createNew) ∧
    uploadAction createNew = .str (if createNew then "mergeOrUpload" else "merge") ∧
    (∀ k, k ≠ "@search.action" →
      lookupEntry (setEntry doc "@search.action" (uploadAction createNew)) k =
        lookupEntry doc k) ∧
    uploadDocumentBody [("id", .str "1"), ("title", .str "x")] true =
      .obj [("value", .arr [.obj [("id", .str "1"), ("title", .str "x"),
        ("@search.action", .str "mergeOrUpload")]])] := by
  refine ⟨rfl, lookupEntry_setEntry_self _ _ _, rfl, ?_, rfl⟩
  intro k hk
  exact lookupEntry_setEntry_ne _ _ _ _ hk

/-- Witness for C6: the id field of a stamped record is preserved. -/
theorem uploadDocument_builds_batch_witness :
    lookupEntry (setEntry [("id", JSVal.str "1")] "@search.action" (uploadAction false)) "id" =
      some (JSVal.str "1") :=
  (uploadDocument_builds_batch [("id", JSVal.str "1")] false).2.2.2.1 "id" (by decide)

/-- C7: query in raw mode returns the body untouched; query in normal
mode sets the normalized nextLink field from the vendor pagination
field and the normalized continuation-parameters field from the vendor
next-page-parameters field while leaving every other field unchanged;
queryNext returns exactly the normal-mode (fixed-up) body, with no raw
mode of its own. -/
theorem query_fixup_normalizes (c : SimpleSearchClient)
    (indexName queryString nextLink : String) (fs : List (String × JSVal)) :
    (query c indexName queryString (.obj fs) true).2 = .obj fs ∧
    getField (query c indexName queryString (.obj fs) false).2 "nextLink" =
      getField (.obj fs) "@odata.nextLink" ∧
    getField (query c indexName queryString (.obj fs) false).2 "nextPageParameteres" =
      getField (.obj fs) "@search.nextPageParameters" ∧
    (queryNext c nextLink (.obj fs)).2 = (query c indexName queryString (.obj fs) false).2 ∧
    (∀ k, k ≠ "nextLink" → k ≠ "nextPageParameteres" →
      getField (query c indexName queryString (.obj fs) false).2 k =
        getField (.obj fs) k) := by
  refine ⟨rfl, ?_, ?_, rfl, ?_⟩
  · simp [query, fixupQueryResponse, setField, getField, lookupEntry_setEntry_eq]
  · simp [query, fixupQueryResponse, setField, getField, lookupEntry_setEntry_eq]
  · intro k hk1 hk2
    simp [query, fixupQueryResponse, setField, getField, lookupEntry_setEntry_eq, hk1, hk2]

/-- Witness for C7: the value field survives the fixup untouched. -/
theorem query_fixup_normalizes_witness :
    getField (query ⟨"svc", "key", none, "agent"⟩ "idx" ""
        (JSVal.obj [("value", JSVal.arr [])]) false).2 "value" =
      getField (JSVal.obj [("value", JSVal.arr [])]) "value" :=
  (query_fixup_normalizes ⟨"svc", "key", none, "agent"⟩ "idx" "" "link"
    [("value", JSVal.arr [])]).2.2.2.2 "value" (by decide) (by decide)

/-- C8: in the heap model of uploadDocument, the caller's record is
left untouched: after the call the record at the caller's reference has
exactly the fields it had before, the submitted reference is distinct
from the caller's reference, and the submitted record is the stamped
shallow copy. -/
theorem uploadDocument_no_alias (heap : List (List (String × JSVal))) (docRef : Nat)
    (createNew : Bool) (h : docRef < heap.length) :
    (uploadDocumentAlloc heap docRef createNew).1.getD docRef [] = heap.getD docRef [] ∧
    (uploadDocumentAlloc heap docRef createNew).2 ≠ docRef ∧
    (uploadDocumentAlloc heap docRef createNew).1.getD
        (uploadDocumentAlloc heap docRef createNew).2 [] =
      setEntry (heap.getD docRef []) "@search.action" (uploadAction createNew) := by
  simp only [uploadDocumentAlloc]
  refine ⟨?_, by omega, ?_⟩
  · rw [List.getD_eq_getElem?_getD, List.getElem?_set_ne (by omega : heap.length ≠ docRef),
      List.getElem?_append_left h, ← List.getD_eq_getElem?_getD]
  · rw [List.getD_eq_getElem?_getD,
      List.getElem?_set_eq_of_lt _ (by simp : heap.length < (heap ++ [heap.getD docRef []]).length)]
    rfl

/-- Witness for C8 at a one-record heap. -/
theorem uploadDocument_no_alias_witness :
    (uploadDocumentAlloc [[("id", JSVal.str "1")]] 0 true).1.getD 0 [] =
      [[("id", JSVal.str "1")]].getD 0 [] ∧
    (uploadDocumentAlloc [[("id", JSVal.str "1")]] 0 true).2 ≠ 0 ∧
    (uploadDocumentAlloc [[("id", JSVal.str "1")]] 0 true).1.getD
        (uploadDocumentAlloc [[("id", JSVal.str "1")]] 0 true).2 [] =
      setEntry ([[("id", JSVal.str "1")]].getD 0 []) "@search.action" (uploadAction true) :=
  uploadDocument_no_alias [[("id", JSVal.str "1")]] 0 true (by decide)

/-- C9: updateResource attaches the if-match concurrency header only
when the supplied token is truthy: with the empty-string token the
request is identical to the request with no token at all and carries no
if-match header, while any non-empty token is attached as the if-match
header. -/
theorem updateResource_ifmatch (c : SimpleSearchClient) (resource name : String)
    (content : JSVal) :
    updateResource c resource name content (some "") =
      updateResource c resource name content none ∧
    lookupEntry (updateResource c resource name content (some "")).headers "if-match" =
      none ∧
    lookupEntry (updateResource c resource name content none).headers "if-match" = none ∧
    (∀ e : String, e ≠ "" →
      lookupEntry (updateResource c resource name content (some e)).headers "if-match" =
        some e) := by
  refine ⟨rfl, rfl, rfl, ?_⟩
  intro e he
  have hb : (e != "") = true := by simpa using he
  simp [updateResource, httpPut, makeRequestConfig, hb, lookupEntry_setEntry_eq]

/-- Witness for C9 at a non-empty token. -/
theorem updateResource_ifmatch_witness :
    lookupEntry (updateResource ⟨"svc", "key", none, "agent"⟩ "indexes" "idx"
        (JSVal.obj []) (some "etagvalue")).headers "if-match" = some "etagvalue" :=
  (updateResource_ifmatch ⟨"svc", "key", none, "agent"⟩ "indexes" "idx"
    (JSVal.obj [])).2.2.2 "etagvalue" (by decide)

/-- C10: lookup GETs the document path with the key percent-encoded by
encodeURIComponent — no character of the encoded key is a slash,
question mark, ampersand or hash — and hands the response body back
unmodified, with no pagination fixup. -/
theorem lookup_encodes_key (c : SimpleSearchClient) (indexName key : String) (data : JSVal) :
    lookup c indexName key =
      httpGet c ("indexes/" ++ indexName ++ "/docs/" ++ encodeURIComponent key) ∧
    (lookup c indexName key).method = "GET" ∧
    (lookup c indexName key).url =
      makeUrl c ("indexes/" ++ indexName ++ "/docs/" ++ encodeURIComponent key) "" ∧
    (∀ ch ∈ (encodeURIComponent key).data, ch ≠ '/' ∧ ch ≠ '?' ∧ ch ≠ '&' ∧ ch ≠ '#') ∧
    lookupResult data = data ∧
    encodeURIComponent "a/b?c&d#e" = "a%2Fb%3Fc%26d%23e" :=
  ⟨rfl, rfl, rfl, encodeURIComponent_chars key, rfl, by decide⟩

/-- Witness for C10: the encoded form of a key containing a slash holds
a percent sign where the reserved characters are excluded. -/
theorem lookup_encodes_key_witness :
    ('%' ≠ '/' ∧ '%' ≠ '?' ∧ '%' ≠ '&' ∧ '%' ≠ '#') ∧
    lookupResult (JSVal.str "doc") = JSVal.str "doc" :=
  ⟨(lookup_encodes_key ⟨"svc", "key", none, "agent"⟩ "idx" "a/b" JSVal.null).2.2.2.1 '%'
      (by decide),
    (lookup_encodes_key ⟨"svc", "key", none, "agent"⟩ "idx" "a/b"
      (JSVal.str "doc")).2.2.2.2.1⟩

end ClaimTheorems

end AzureSearch
